import Mathlib

/-!
Shallow embedding of the core of the gdsfactory/pp layout-assembly repository:
the memoized cell cache, the geometry primitives of
`gdsfactory/components/spiral_circular.py` (`taper`, `straight`,
`spiral_circular`), the port-pairing router of
`gdsfactory/routing/add_electrical_pads_top.py`, the `hline` factory of
`pp/components/hline.py`, and the cutback sequence generators of
`pp/components/cutback_bend.py`.

Real-valued machine arithmetic is modelled over a linear ordered field
(instantiable at `ℚ` for evaluation and at `ℝ` with `Real.pi` for the
spiral); fallible primitives return `Except`.
-/

namespace Gds

/-! ## Memoized cell cache

Modelled from the spec: the cache decorator (`pp/cell.py` /
`gdsfactory/cell.py`) is not part of the source sample; §3 "Cache key" and
§8 "Cache identity" describe it.  A canonical key is an element of an
arbitrary decidable-equality type `κ`; Python object identity of the built
`Component` is modelled by a natural-number instance id allocated from a
fresh counter at first construction.  `getOrBuild` looks the key up and
either returns the stored instance id unchanged or allocates a fresh id
and stores it. -/

structure CacheState (κ : Type) where
  entries : List (κ × ℕ)
  next : ℕ
deriving Repr

def CacheState.empty (κ : Type) : CacheState κ := ⟨[], 0⟩

def getOrBuild {κ : Type} [DecidableEq κ] (st : CacheState κ) (k : κ) :
    ℕ × CacheState κ :=
  match st.entries.find? (fun e => e.1 = k) with
  | some e => (e.2, st)
  | none => (st.next, ⟨(k, st.next) :: st.entries, st.next + 1⟩)

/-- Well-formedness of a cache state: all stored instance ids are below the
fresh counter and pairwise distinct. -/
def CacheWF {κ : Type} (st : CacheState κ) : Prop :=
  (∀ e ∈ st.entries, e.2 < st.next) ∧
    st.entries.Pairwise (fun a b => a.2 ≠ b.2)

instance {κ : Type} [DecidableEq κ] (st : CacheState κ) :
    Decidable (CacheWF st) := by
  unfold CacheWF; infer_instance

theorem getOrBuild_wf {κ : Type} [DecidableEq κ] (st : CacheState κ) (k : κ)
    (h : CacheWF st) : CacheWF (getOrBuild st k).2 := by
  obtain ⟨hlt, hpw⟩ := h
  unfold getOrBuild
  cases hf : st.entries.find? (fun e => e.1 = k) with
  | some e => exact ⟨hlt, hpw⟩
  | none =>
    refine ⟨?_, ?_⟩
    · intro e he
      rcases List.mem_cons.mp he with rfl | he
      · exact Nat.lt_succ_self _
      · exact Nat.lt_succ_of_lt (hlt e he)
    · refine List.pairwise_cons.mpr ⟨?_, hpw⟩
      intro e he
      exact fun hcontra => absurd (hlt e he) (by simp [← hcontra])

theorem find?_key {κ : Type} [DecidableEq κ] {l : List (κ × ℕ)} {k : κ}
    {e : κ × ℕ} (h : l.find? (fun e => e.1 = k) = some e) : e.1 = k := by
  have := List.find?_some h
  simpa using this

theorem getOrBuild_same_key {κ : Type} [DecidableEq κ] (st : CacheState κ)
    (k : κ) :
    getOrBuild (getOrBuild st k).2 k = ((getOrBuild st k).1, (getOrBuild st k).2) := by
  unfold getOrBuild
  cases hf : st.entries.find? (fun e => e.1 = k) with
  | some e => simp [hf]
  | none => simp [hf, List.find?]

theorem getOrBuild_ne_key {κ : Type} [DecidableEq κ] (st : CacheState κ)
    {k1 k2 : κ} (hwf : CacheWF st) (hne : k1 ≠ k2) :
    (getOrBuild (getOrBuild st k1).2 k2).1 ≠ (getOrBuild st k1).1 := by
  obtain ⟨hlt, hpw⟩ := hwf
  unfold getOrBuild
  cases hf1 : st.entries.find? (fun e => e.1 = k1) with
  | some e1 =>
    have hk1 : e1.1 = k1 := find?_key hf1
    have hm1 : e1 ∈ st.entries := List.mem_of_find?_eq_some hf1
    simp only
    cases hf2 : st.entries.find? (fun e => e.1 = k2) with
    | some e2 =>
      have hk2 : e2.1 = k2 := find?_key hf2
      have hm2 : e2 ∈ st.entries := List.mem_of_find?_eq_some hf2
      have hne' : e2 ≠ e1 := by
        intro hcontra
        exact hne (by rw [← hk1, ← hk2, hcontra])
      exact hpw.forall (fun a b h => h.symm) hm2 hm1 hne'
    | none =>
      exact Nat.ne_of_gt (hlt e1 hm1)
  | none =>
    have hhead : ((k1, st.next).1 = k2) = False := by simp [hne]
    simp only [List.find?, hhead]
    cases hf2 : st.entries.find? (fun e => e.1 = k2) with
    | some e2 =>
      have hm2 : e2 ∈ st.entries := List.mem_of_find?_eq_some hf2
      simpa [hf2, decide_eq_true_eq, hne] using Nat.ne_of_lt (hlt e2 hm2)
    | none =>
      simp [hf2, decide_eq_true_eq, hne, Nat.succ_ne_self st.next]

/-- C1: two `getOrBuild` calls with the same canonical key return the same
instance id (reference identity of the cached component) and leave the
cache unchanged after the first call; from a well-formed cache state, a
call with a different canonical key returns a distinct instance id. -/
theorem cache_identity {κ : Type} [DecidableEq κ] (st : CacheState κ)
    (k1 k2 : κ) (hwf : CacheWF st) :
    (getOrBuild (getOrBuild st k1).2 k1).1 = (getOrBuild st k1).1 ∧
      (getOrBuild (getOrBuild st k1).2 k1).2 = (getOrBuild st k1).2 ∧
      (k1 ≠ k2 →
        (getOrBuild (getOrBuild st k1).2 k2).1 ≠ (getOrBuild st k1).1) :=
  ⟨congrArg Prod.fst (getOrBuild_same_key st k1),
    congrArg Prod.snd (getOrBuild_same_key st k1),
    fun hne => getOrBuild_ne_key st hwf hne⟩

/-- Witness for C1 at a concrete cache state and keys. -/
theorem cache_identity_witness :
    CacheWF (CacheState.empty ℕ) ∧
      (getOrBuild (getOrBuild (CacheState.empty ℕ) 7).2 7).1 =
          (getOrBuild (CacheState.empty ℕ) 7).1 ∧
        (getOrBuild (getOrBuild (CacheState.empty ℕ) 7).2 7).2 =
            (getOrBuild (CacheState.empty ℕ) 7).2 ∧
        (7 ≠ 8 →
          (getOrBuild (getOrBuild (CacheState.empty ℕ) 7).2 8).1 ≠
            (getOrBuild (CacheState.empty ℕ) 7).1) :=
  ⟨by decide, cache_identity (CacheState.empty ℕ) 7 8 (by decide)⟩

/-! ## Geometry primitives of `gdsfactory/components/spiral_circular.py`

`taper` and `straight` are embedded over an arbitrary linear ordered field
(the source computes with IEEE doubles).  Python functions may raise, and
the spec's §7 assigns these primitives an `InvalidGeometryError`; the
embedding therefore returns `Except GeomError _`, with an error exactly on
the source's raise paths — of which `taper` and `straight` have none. -/

inductive GeomError where
  | invalidGeometry
  | duplicateName
deriving DecidableEq, Repr

/-- Modelled from the spec: the layer resolver (§6) maps a layer spec to a
concrete (layer-number, datatype-number) pair; `gf.get_layer` is not part
of the source sample.  On an already-concrete pair it is the identity. -/
def get_layer (layer : ℕ × ℕ) : ℕ × ℕ := layer

structure Poly (α : Type) where
  points : List (α × α)
  layer : ℕ
  datatype : ℕ
deriving DecidableEq, Repr

variable {α : Type} [LinearOrderedField α]

def taper (start_width end_width length : α) (start_coord : α × α)
    (layer : ℕ × ℕ) :
    Except GeomError (Poly α × (α × α) × (α × α)) :=
  let lay := get_layer layer
  let s := start_coord
  let top_left := (s.1, s.2 + start_width / 2)
  let bot_left := (s.1, s.2 - start_width / 2)
  let top_right := (s.1 + length, s.2 + end_width / 2)
  let bot_right := (s.1 + length, s.2 - end_width / 2)
  let e := (s.1 + length, s.2)
  Except.ok (⟨[top_left, bot_left, bot_right, top_right], lay.1, lay.2⟩, s, e)

def straight (width length : α) (start_coord : α × α) (layer : ℕ × ℕ) :
    Except GeomError (Poly α × (α × α) × (α × α)) :=
  let lay := get_layer layer
  taper width width length start_coord lay

/-- C6: for a positive length `L`, the taper primitive returns the
trapezoid with corners `(sx, sy+w1/2)`, `(sx, sy-w1/2)`, `(sx+L, sy-w2/2)`,
`(sx+L, sy+w2/2)` (in the source's corner order top-left, bottom-left,
bottom-right, top-right), the start anchor `s` and the end anchor
`(sx+L, sy)`. -/
theorem taper_trapezoid (w1 w2 L : α) (s : α × α) (lay : ℕ × ℕ)
    (_hL : 0 < L) :
    taper w1 w2 L s lay =
      Except.ok
        (⟨[(s.1, s.2 + w1 / 2), (s.1, s.2 - w1 / 2),
            (s.1 + L, s.2 - w2 / 2), (s.1 + L, s.2 + w2 / 2)],
          lay.1, lay.2⟩, s, (s.1 + L, s.2)) := rfl

/-- Witness for C6 at concrete rational inputs. -/
theorem taper_trapezoid_witness :
    (0 : ℚ) < 3 ∧
      taper (1 : ℚ) 2 3 (4, 5) (1, 0) =
        Except.ok
          (⟨[((4 : ℚ), 5 + 1 / 2), (4, 5 - 1 / 2), (4 + 3, 5 - 2 / 2),
              (4 + 3, 5 + 2 / 2)], 1, 0⟩, (4, 5), (4 + 3, 5)) :=
  ⟨by norm_num, taper_trapezoid 1 2 3 (4, 5) (1, 0) (by norm_num)⟩

/-- C5 counterexample: called with `length == 0`, the taper primitive does
not fail — it returns a (degenerate) polygon and anchors, not an
`InvalidGeometryError`. -/
theorem taper_zero_length_ok :
    (taper (1 : ℚ) 1 0 (0, 0) (1, 0)).isOk = true := rfl

/-- C5 (amended): called with `length == 0`, the taper primitive succeeds,
returning the degenerate trapezoid whose right edge coincides in `x` with
its left edge and whose end anchor equals the start anchor. -/
theorem taper_zero_length (w1 w2 : α) (s : α × α) (lay : ℕ × ℕ) :
    taper w1 w2 0 s lay =
      Except.ok
        (⟨[(s.1, s.2 + w1 / 2), (s.1, s.2 - w1 / 2), (s.1, s.2 - w2 / 2),
            (s.1, s.2 + w2 / 2)], lay.1, lay.2⟩, s, s) := by
  simp [taper, get_layer]

/-- The rectangle that §4.2's straight-segment contract describes, written
from the spec's words: an axis-aligned rectangle of width `w` and length
`L` whose left edge is centred on the start anchor. -/
def rectangleSpec (s : α × α) (w L : α) : List (α × α) :=
  [(s.1, s.2 + w / 2), (s.1, s.2 - w / 2), (s.1 + L, s.2 - w / 2),
    (s.1 + L, s.2 + w / 2)]

/-- C10: the straight primitive returns exactly what the taper primitive
returns at equal start and end widths, and its polygon is the axis-aligned
rectangle `rectangleSpec`. -/
theorem straight_eq_taper (w L : α) (s : α × α) (lay : ℕ × ℕ) :
    straight w L s lay = taper w w L s lay ∧
      straight w L s lay =
        Except.ok
          (⟨rectangleSpec s w L, (get_layer lay).1, (get_layer lay).2⟩, s,
            (s.1 + L, s.2)) :=
  ⟨rfl, rfl⟩

/-! ## Revolution estimation loop of `spiral_circular`

The source runs `while length_total <= length: length_total += 3.0 * np.pi
* (min_bend_radius * 2.0 + (i + 0.5) * spacing); i += 1` and then sets
`revolutions = i + 1`.  The constant `np.pi` is a parameter `pi` of the
embedding (`0.5` is written `1 / 2`); the unbounded `while` is a
fuel-indexed recursion returning `none` when the fuel runs out. -/

def spiralTerm (pi r s : α) (i : ℕ) : α :=
  3 * pi * (r * 2 + ((i : α) + 1 / 2) * s)

def spiralSum (pi r s : α) : ℕ → α
  | 0 => 0
  | n + 1 => spiralSum pi r s n + spiralTerm pi r s n

def revLoopAux (pi r s L : α) : ℕ → α → ℕ → Option ℕ
  | 0, total, i => if total ≤ L then none else some i
  | fuel + 1, total, i =>
    if total ≤ L then
      revLoopAux pi r s L fuel (total + spiralTerm pi r s i) (i + 1)
    else some i

def revLoop (pi r s L : α) (fuel : ℕ) : Option ℕ :=
  revLoopAux pi r s L fuel 0 0

def revolutionsCount (pi r s L : α) (fuel : ℕ) : Option ℕ :=
  (revLoop pi r s L fuel).map (· + 1)

theorem revLoopAux_spec (pi r s L : α) :
    ∀ (fuel i n : ℕ), (∀ m < i, spiralSum pi r s m ≤ L) →
      revLoopAux pi r s L fuel (spiralSum pi r s i) i = some n →
      L < spiralSum pi r s n ∧ ∀ m < n, spiralSum pi r s m ≤ L := by
  intro fuel
  induction fuel with
  | zero =>
    intro i n hinv h
    by_cases hle : spiralSum pi r s i ≤ L
    · simp [revLoopAux, hle] at h
    · simp [revLoopAux, hle] at h
      exact h ▸ ⟨lt_of_not_le hle, hinv⟩
  | succ fuel ih =>
    intro i n hinv h
    by_cases hle : spiralSum pi r s i ≤ L
    · rw [revLoopAux, if_pos hle] at h
      have hstep : spiralSum pi r s i + spiralTerm pi r s i =
          spiralSum pi r s (i + 1) := rfl
      rw [hstep] at h
      refine ih (i + 1) n ?_ h
      intro m hm
      rcases Nat.lt_succ_iff_lt_or_eq.mp hm with hm' | rfl
      · exact hinv m hm'
      · exact hle
    · rw [revLoopAux, if_neg hle] at h
      have hn : i = n := by simpa using h
      exact hn ▸ ⟨lt_of_not_le hle, hinv⟩

/-- C3: whenever the revolution-estimation loop terminates with `n`
accumulated terms, `n` is exactly the first index at which the running sum
of the per-turn estimates `3·pi·(2·min_bend_radius + (i + 1/2)·spacing)`
exceeds the requested length `L` (the loop body runs while the sum is
`≤ L`), and the revolution count reported is `n + 1`. -/
theorem spiral_rev_estimation (pi r s L : α) (fuel n : ℕ)
    (h : revLoop pi r s L fuel = some n) :
    L < spiralSum pi r s n ∧ (∀ m < n, spiralSum pi r s m ≤ L) ∧
      revolutionsCount pi r s L fuel = some (n + 1) := by
  have h0 : revLoopAux pi r s L fuel (spiralSum pi r s 0) 0 = some n := h
  obtain ⟨h1, h2⟩ := revLoopAux_spec pi r s L fuel 0 n (by omega) h0
  exact ⟨h1, h2, by simp [revolutionsCount, h]⟩

/-- Witness for C3 at concrete rational parameters. -/
theorem spiral_rev_estimation_witness :
    revLoop (1 : ℚ) 0 2 3 3 = some 2 ∧
      ((3 : ℚ) < spiralSum 1 0 2 2 ∧
        (∀ m < 2, spiralSum (1 : ℚ) 0 2 m ≤ 3) ∧
        revolutionsCount (1 : ℚ) 0 2 3 3 = some 3) :=
  ⟨by norm_num [revLoop, revLoopAux, spiralTerm],
    spiral_rev_estimation 1 0 2 3 3 2
      (by norm_num [revLoop, revLoopAux, spiralTerm])⟩

/-! ## `pp/components/hline.py`

`hline` builds a component holding at most one rectangle polygon and two
ports.  The source has no raise path: the rectangle is guarded by
`length > 0 and width > 0`, while the two `add_port` calls (distinct names
`"W0"`, `"E0"`, so no `DuplicateNameError` under §4.1) always run; the
embedding is accordingly a total function. -/

structure PPort (α : Type) where
  name : String
  midpoint : α × α
  width : α
  orientation : ℕ
  layer : ℕ × ℕ
  port_type : String
deriving DecidableEq, Repr

structure HComponent (α : Type) where
  polygons : List (Poly α)
  ports : List (PPort α)
  width : α
  length : α
deriving DecidableEq, Repr

def hline (length width : α) (layer : ℕ × ℕ) (port_type : String) :
    HComponent α :=
  let a := width / 2
  let polys : List (Poly α) :=
    if 0 < length ∧ 0 < width then
      [⟨[(0, -a), (length, -a), (length, a), (0, a)], layer.1, layer.2⟩]
    else []
  { polygons := polys
    ports := [⟨"W0", (0, 0), width, 180, layer, port_type⟩,
      ⟨"E0", (length, 0), width, 0, layer, port_type⟩]
    width := width
    length := length }

/-- C9: for every length and width (including non-positive ones) `hline`
returns a component; the port `"W0"` at `(0, 0)` with orientation `180`
and the port `"E0"` at `(length, 0)` with orientation `0` are always
present, while the rectangle polygon is present exactly when both the
length and the width are positive. -/
theorem hline_ports_total (length width : α) (layer : ℕ × ℕ)
    (port_type : String) :
    (hline length width layer port_type).ports.find?
        (fun p => p.name = "W0") =
        some ⟨"W0", (0, 0), width, 180, layer, port_type⟩ ∧
      (hline length width layer port_type).ports.find?
          (fun p => p.name = "E0") =
          some ⟨"E0", (length, 0), width, 0, layer, port_type⟩ ∧
      ((hline length width layer port_type).polygons ≠ [] ↔
        0 < length ∧ 0 < width) := by
  refine ⟨by simp [hline, List.find?], by simp [hline, List.find?], ?_⟩
  by_cases h : 0 < length ∧ 0 < width
  · simp [hline, h]
  · simp [hline, h]

/-! ## Sequence strings of `pp/components/cutback_bend.py`

`cutback_bend90` builds `("A-A-B-B-"*n_steps + "|")` (or the `B`-first
variant) per column and drops the final character; `cutback_bend` builds
`("ASBS"*n_steps + ("ASAS"|"BSBS"))` per stair and drops the final four
characters (Python `s[:-4]`, which on a shorter string yields `""`).
Both record an `n_bends` metadata value via `update_settings`. -/

def isAB (c : Char) : Bool := c == 'A' || c == 'B'

def countAB (l : List Char) : ℕ := (l.filter isAB).length

/-- Python string repetition `l * n`. -/
def pyRep (l : List Char) : ℕ → List Char
  | 0 => []
  | n + 1 => l ++ pyRep l n

def blk90A : List Char := ['A', '-', 'A', '-', 'B', '-', 'B', '-']
def blk90B : List Char := ['B', '-', 'B', '-', 'A', '-', 'A', '-']

def row90 (n_steps i : ℕ) : List Char :=
  (if i % 2 = 0 then pyRep blk90A n_steps else pyRep blk90B n_steps) ++ ['|']

def seq90full (n_steps cols : ℕ) : List Char :=
  ((List.range cols).map (row90 n_steps)).flatten

def seq90 (n_steps cols : ℕ) : List Char := (seq90full n_steps cols).dropLast

/-- `n_bends` recorded by `cutback_bend90`. -/
def nBends90 (n_steps cols : ℕ) : ℤ := n_steps * cols * 4

def blkBend : List Char := ['A', 'S', 'B', 'S']
def tailEven : List Char := ['A', 'S', 'A', 'S']
def tailOdd : List Char := ['B', 'S', 'B', 'S']

def stair (n_steps i : ℕ) : List Char :=
  pyRep blkBend n_steps ++ (if i % 2 = 0 then tailEven else tailOdd)

def seqBendFull (n_steps n_stairs : ℕ) : List Char :=
  ((List.range n_stairs).map (stair n_steps)).flatten

def seqBend (n_steps n_stairs : ℕ) : List Char :=
  (seqBendFull n_steps n_stairs).take ((seqBendFull n_steps n_stairs).length - 4)

/-- `n_bends` recorded by `cutback_bend`. -/
def nBendsStair (n_steps n_stairs : ℕ) : ℤ :=
  n_steps * n_stairs * 2 + n_stairs * 2 - 2

theorem countAB_append (a b : List Char) :
    countAB (a ++ b) = countAB a + countAB b := by
  simp [countAB, List.filter_append]

theorem countAB_pyRep (l : List Char) (n : ℕ) :
    countAB (pyRep l n) = n * countAB l := by
  induction n with
  | zero => simp [pyRep, countAB]
  | succ n ih => rw [pyRep, countAB_append, ih]; ring

theorem countAB_blk90A : countAB blk90A = 4 := rfl
theorem countAB_blk90B : countAB blk90B = 4 := rfl
theorem countAB_blkBend : countAB blkBend = 2 := rfl
theorem countAB_bar : countAB ['|'] = 0 := rfl
theorem countAB_tailEven : countAB tailEven = 2 := rfl
theorem countAB_tailOdd : countAB tailOdd = 2 := rfl

theorem seq90full_succ (n c : ℕ) :
    seq90full n (c + 1) = seq90full n c ++ row90 n c := by
  simp [seq90full, List.range_succ]

theorem countAB_seq90full (n c : ℕ) : countAB (seq90full n c) = 4 * n * c := by
  induction c with
  | zero => rfl
  | succ c ih =>
    rw [seq90full_succ, countAB_append, ih, row90, countAB_append, countAB_bar]
    split
    · rw [countAB_pyRep, countAB_blk90A]; ring
    · rw [countAB_pyRep, countAB_blk90B]; ring

theorem seq90_succ (n c : ℕ) :
    seq90 n (c + 1) =
      seq90full n c ++
        (if c % 2 = 0 then pyRep blk90A n else pyRep blk90B n) := by
  rw [seq90, seq90full_succ, row90, ← List.append_assoc, List.dropLast_concat]

theorem countAB_seq90 (n c : ℕ) : countAB (seq90 n c) = n * c * 4 := by
  cases c with
  | zero => rfl
  | succ c =>
    rw [seq90_succ, countAB_append, countAB_seq90full]
    split
    · rw [countAB_pyRep, countAB_blk90A]; ring
    · rw [countAB_pyRep, countAB_blk90B]; ring

theorem countAB_stair (n i : ℕ) : countAB (stair n i) = 2 * n + 2 := by
  rw [stair, countAB_append, countAB_pyRep, countAB_blkBend]
  split
  · rw [countAB_tailEven]; ring
  · rw [countAB_tailOdd]; ring

theorem seqBendFull_succ (n m : ℕ) :
    seqBendFull n (m + 1) = seqBendFull n m ++ stair n m := by
  simp [seqBendFull, List.range_succ]

theorem countAB_seqBendFull (n m : ℕ) :
    countAB (seqBendFull n m) = m * (2 * n + 2) := by
  induction m with
  | zero => simp [seqBendFull, countAB]
  | succ m ih =>
    rw [seqBendFull_succ, countAB_append, ih, countAB_stair]; ring

theorem seqBend_succ (n m : ℕ) :
    seqBend n (m + 1) = seqBendFull n m ++ pyRep blkBend n := by
  have htail : ∀ i : ℕ,
      (if i % 2 = 0 then tailEven else tailOdd).length = 4 := by
    intro i; split <;> rfl
  rw [seqBend, seqBendFull_succ, stair, ← List.append_assoc]
  rw [List.length_append, htail, Nat.add_sub_cancel]
  have := List.take_left (seqBendFull n m ++ pyRep blkBend n)
    (if m % 2 = 0 then tailEven else tailOdd)
  simpa using this

theorem countAB_seqBend_succ (n m : ℕ) :
    countAB (seqBend n (m + 1)) = m * (2 * n + 2) + 2 * n := by
  rw [seqBend_succ, countAB_append, countAB_seqBendFull, countAB_pyRep,
    countAB_blkBend]
  ring

/-- C7 (amended for `cutback_bend`, which requires `n_stairs ≥ 1`): the
number of bend symbols `'A'`/`'B'` in `cutback_bend90`'s sequence string
equals its recorded `n_bends = n_steps*cols*4` for every `n_steps` and
`cols`, and the number of bend symbols in `cutback_bend`'s truncated
sequence string equals its recorded
`n_bends = n_steps*n_stairs*2 + n_stairs*2 - 2` for every `n_steps` and
every `n_stairs ≥ 1`. -/
theorem cutback_bend_counts :
    (∀ n_steps cols : ℕ,
        (countAB (seq90 n_steps cols) : ℤ) = nBends90 n_steps cols) ∧
      ∀ n_steps n_stairs : ℕ, 1 ≤ n_stairs →
        (countAB (seqBend n_steps n_stairs) : ℤ) =
          nBendsStair n_steps n_stairs := by
  constructor
  · intro n c
    rw [countAB_seq90, nBends90]
    push_cast
    ring
  · intro n st hst
    cases st with
    | zero => exact absurd hst (by decide)
    | succ m =>
      rw [countAB_seqBend_succ, nBendsStair]
      push_cast
      ring

/-- C7 counterexample: at `n_stairs = 0` the truncated `cutback_bend`
string is empty (0 bend symbols) while the recorded metadata is
`n_steps*0*2 + 0*2 - 2 = -2`. -/
theorem cutback_bend_count_zero_stairs :
    (countAB (seqBend 1 0) : ℤ) ≠ nBendsStair 1 0 := by decide

/-- Witness for C7 at concrete parameters. -/
theorem cutback_bend_counts_witness :
    (1 : ℕ) ≤ 3 ∧
      (countAB (seqBend 2 3) : ℤ) = nBendsStair 2 3 :=
  ⟨by decide, cutback_bend_counts.2 2 3 (by decide)⟩

/-! ## Port-pairing router of `gdsfactory/routing/add_electrical_pads_top.py`

The caller sorts the component's electrical ports and the pad ports with
`sort_ports_x`, zips the two sorted sequences, and places one `route_quad`
connector per pair.  `sort_ports_x` and `route_quad` themselves are not in
the source sample and are modelled from the spec (§4.4): the sort key is
ascending x, ties broken by y, stable; the connector is one quad polygon
per pair on the target layer whose width is the smaller of the two port
widths. -/

structure RPort where
  name : String
  x : ℚ
  y : ℚ
  width : ℚ
deriving DecidableEq, Repr

def portLE (p q : RPort) : Prop := p.x < q.x ∨ (p.x = q.x ∧ p.y ≤ q.y)

instance : DecidableRel portLE := fun p q => by
  unfold portLE; infer_instance

instance : IsTotal RPort portLE :=
  ⟨fun a b => by
    rcases lt_trichotomy a.x b.x with h | h | h
    · exact Or.inl (Or.inl h)
    · rcases le_total a.y b.y with hy | hy
      · exact Or.inl (Or.inr ⟨h, hy⟩)
      · exact Or.inr (Or.inr ⟨h.symm, hy⟩)
    · exact Or.inr (Or.inl h)⟩

instance : IsTrans RPort portLE :=
  ⟨fun a b c hab hbc => by
    rcases hab with hab | ⟨hab, hay⟩
    · rcases hbc with hbc | ⟨hbc, _⟩
      · exact Or.inl (hab.trans hbc)
      · exact Or.inl (hbc ▸ hab)
    · rcases hbc with hbc | ⟨hbc, hby⟩
      · exact Or.inl (hab ▸ hbc)
      · exact Or.inr ⟨hab.trans hbc, hay.trans hby⟩⟩

/-- Modelled from the spec: `sort_ports_x` — a stable sort by ascending x,
ties broken by y (§4.4). -/
def sort_ports_x (ports : List RPort) : List RPort :=
  List.insertionSort portLE ports

structure Quad where
  a : RPort
  b : RPort
  width : ℚ
  layer : ℕ × ℕ
deriving DecidableEq, Repr

/-- Modelled from the spec: `route_quad` — one connector polygon per pair,
on the target layer, with width the smaller of the two port widths
(§4.4). -/
def route_quad (p1 p2 : RPort) (layer : ℕ × ℕ) : Quad :=
  ⟨p1, p2, min p1.width p2.width, layer⟩

def pair_and_route (ports_a ports_b : List RPort) (layer : ℕ × ℕ) :
    List (RPort × RPort) × List Quad :=
  let sa := sort_ports_x ports_a
  let sb := sort_ports_x ports_b
  let pairs := sa.zip sb
  (pairs, pairs.map fun pr => route_quad pr.1 pr.2 layer)

/-- The concrete scenario's inputs: 4 component ports at x = 0,10,20,30
and 4 pad ports at x = 5,15,25,35, both deliberately out of order. -/
def demoA : List RPort :=
  [⟨"e2", 20, 0, 10⟩, ⟨"e0", 0, 0, 10⟩, ⟨"e3", 30, 0, 10⟩, ⟨"e1", 10, 0, 10⟩]

def demoB : List RPort :=
  [⟨"p1", 15, 100, 50⟩, ⟨"p3", 35, 100, 50⟩, ⟨"p0", 5, 100, 50⟩,
    ⟨"p2", 25, 100, 50⟩]

/-- C2: for equal-length port collections the router pairs the i-th
element of each collection sorted by ascending x (ties by y): the paired
first components are the first collection reordered into sorted order, the
second components likewise, and exactly one quad connector is produced per
pair; on the concrete scenario the pairing is (0↔5, 10↔15, 20↔25, 30↔35)
in that order with 4 connectors. -/
theorem pair_and_route_spec :
    (∀ (a b : List RPort) (layer : ℕ × ℕ), a.length = b.length →
        ((pair_and_route a b layer).1.map Prod.fst).Perm a ∧
          ((pair_and_route a b layer).1.map Prod.snd).Perm b ∧
          ((pair_and_route a b layer).1.map Prod.fst).Sorted portLE ∧
          ((pair_and_route a b layer).1.map Prod.snd).Sorted portLE ∧
          (pair_and_route a b layer).2.length = a.length) ∧
      (pair_and_route demoA demoB (49, 0)).1 =
        [(⟨"e0", 0, 0, 10⟩, ⟨"p0", 5, 100, 50⟩),
          (⟨"e1", 10, 0, 10⟩, ⟨"p1", 15, 100, 50⟩),
          (⟨"e2", 20, 0, 10⟩, ⟨"p2", 25, 100, 50⟩),
          (⟨"e3", 30, 0, 10⟩, ⟨"p3", 35, 100, 50⟩)] ∧
      (pair_and_route demoA demoB (49, 0)).2.length = 4 := by
  refine ⟨?_, by decide, by decide⟩
  intro a b layer hlen
  have hsa : (sort_ports_x a).length = a.length :=
    (List.perm_insertionSort portLE a).length_eq
  have hsb : (sort_ports_x b).length = b.length :=
    (List.perm_insertionSort portLE b).length_eq
  have hle : (sort_ports_x a).length ≤ (sort_ports_x b).length := by
    rw [hsa, hsb, hlen]
  have hge : (sort_ports_x b).length ≤ (sort_ports_x a).length := by
    rw [hsa, hsb, hlen]
  have hfst : ((sort_ports_x a).zip (sort_ports_x b)).map Prod.fst =
      sort_ports_x a := List.map_fst_zip _ _ hle
  have hsnd : ((sort_ports_x a).zip (sort_ports_x b)).map Prod.snd =
      sort_ports_x b := List.map_snd_zip _ _ hge
  refine ⟨?_, ?_, ?_, ?_, ?_⟩
  · rw [show (pair_and_route a b layer).1 =
        (sort_ports_x a).zip (sort_ports_x b) from rfl, hfst]
    exact List.perm_insertionSort portLE a
  · rw [show (pair_and_route a b layer).1 =
        (sort_ports_x a).zip (sort_ports_x b) from rfl, hsnd]
    exact List.perm_insertionSort portLE b
  · rw [show (pair_and_route a b layer).1 =
        (sort_ports_x a).zip (sort_ports_x b) from rfl, hfst]
    exact List.sorted_insertionSort portLE a
  · rw [show (pair_and_route a b layer).1 =
        (sort_ports_x a).zip (sort_ports_x b) from rfl, hsnd]
    exact List.sorted_insertionSort portLE b
  · rw [show (pair_and_route a b layer).2 =
        ((sort_ports_x a).zip (sort_ports_x b)).map
          (fun pr => route_quad pr.1 pr.2 layer) from rfl]
    rw [List.length_map, List.length_zip, hsa, hsb, hlen, min_self]

/-- Witness for C2 at the concrete scenario's port lists. -/
theorem pair_and_route_spec_witness :
    demoA.length = demoB.length ∧
      ((pair_and_route demoA demoB (49, 0)).1.map Prod.fst).Perm demoA ∧
        ((pair_and_route demoA demoB (49, 0)).1.map Prod.snd).Perm demoB ∧
        ((pair_and_route demoA demoB (49, 0)).1.map Prod.fst).Sorted portLE ∧
        ((pair_and_route demoA demoB (49, 0)).1.map
              Prod.snd).Sorted portLE ∧
        (pair_and_route demoA demoB (49, 0)).2.length = demoA.length :=
  ⟨rfl, pair_and_route_spec.1 demoA demoB (49, 0) rfl⟩

/-! ## Spiral path and realized length of `spiral_circular`

The path `x_sp, y_sp` of the source (two counter-wound Archimedean arms,
an inner 180° bend, the numpy slice-concatenation on lines 121–122) is
embedded over `ℝ` with `Real.pi`, as a function of the revolution count
computed by the loop above.  Python slice idioms: `x[:0:-1]` is
`(x.drop 1).reverse`, `x[:-1]` is `x.dropLast`, `x[-2:0:-1]` is
`((x.drop 1).dropLast).reverse`, `np.append` appends one element.  The
reported length of line 158 is the sum of Euclidean distances of
consecutive path points, snapped to the 1 nm grid and stored into
`c.info["length"]` (line 170). -/

noncomputable def linspace (a b : ℝ) (n : ℕ) : List ℝ :=
  (List.range n).map fun (i : ℕ) => a + (b - a) * (i : ℝ) / ((n : ℝ) - 1)

noncomputable def degToRad (t : ℝ) : ℝ := t * Real.pi / 180

noncomputable def polToRect (radius angle_deg : ℝ) : ℝ × ℝ :=
  (radius * Real.cos (degToRad angle_deg),
    radius * Real.sin (degToRad angle_deg))

noncomputable def spiralPathPoints (wg_width spacing min_bend_radius : ℝ)
    (points revolutions : ℕ) : List (ℝ × ℝ) :=
  let inner_revs := min_bend_radius * 4 / (spacing * 4)
  let theta_1 :=
    linspace (360 * inner_revs) (360 * ((revolutions : ℝ) - 1) + 270) points
  let theta_2 := linspace (360 * inner_revs) (360 * (revolutions : ℝ)) points
  let a := Real.sqrt (spacing / 180)
  let xy1 := theta_1.map fun t => polToRect (a ^ 2 * t) t
  let xy2 := theta_2.map fun t => polToRect (-(a ^ 2) * t) t
  let xy1 := xy1 ++ [((xy1.getLastD (0, 0)).1 + 0.03, (xy1.getLastD (0, 0)).2)]
  let xy2 := xy2 ++ [((xy2.getLastD (0, 0)).1, (xy2.getLastD (0, 0)).2 - 0.03)]
  let end_1 := xy1.headD (0, 0)
  let end_2 := xy2.headD (0, 0)
  let theta_inner := linspace (360 * inner_revs) (360 * inner_revs - 180) 50
  let xyInner1 := theta_inner.map fun t =>
    ((polToRect min_bend_radius t).1 + end_1.1 / 2,
      (polToRect min_bend_radius t).2 + end_1.2 / 2)
  let xyInner1 := xyInner1 ++ [xyInner1.getLastD (0, 0)]
  let xyInner2 := theta_inner.map fun t =>
    ((polToRect (-min_bend_radius) t).1 + end_2.1 / 2,
      (polToRect (-min_bend_radius) t).2 + end_2.2 / 2)
  let xyInner2 := xyInner2 ++ [xyInner2.getLastD (0, 0)]
  (xy1.drop 1).reverse ++ xyInner1.dropLast ++
    ((xyInner2.drop 1).dropLast).reverse ++ xy2

/-- `np.sum(np.hypot(np.diff(x), np.diff(y)))`: the sum of Euclidean
distances between consecutive path points. -/
noncomputable def pathLength : List (ℝ × ℝ) → ℝ
  | p :: q :: rest =>
    Real.sqrt ((q.1 - p.1) ^ 2 + (q.2 - p.2) ^ 2) + pathLength (q :: rest)
  | _ => 0

/-- Modelled from the spec: `gdsfactory.snap.snap_to_grid` is not part of
the source sample; §3 fixes positions in "a fixed-precision length unit",
and the source rounds the reported length to the 1 nm grid (values are in
µm). -/
noncomputable def snap_to_grid (x : ℝ) : ℝ := (round (x * 1000) : ℤ) / 1000

/-- The value the source stores in `c.info["length"]`, as a function of
the requested `length` and the other spiral parameters (`none` when the
loop fuel is exhausted). -/
noncomputable def spiral_circular_length
    (length wg_width spacing min_bend_radius : ℝ) (points fuel : ℕ) :
    Option ℝ :=
  (revLoop Real.pi min_bend_radius spacing length fuel).map fun i =>
    snap_to_grid
      (pathLength (spiralPathPoints wg_width spacing min_bend_radius points
        (i + 1)))

theorem length_linspace (a b : ℝ) (n : ℕ) : (linspace a b n).length = n := by
  simp [linspace]

theorem pathLength_nonneg (pts : List (ℝ × ℝ)) : 0 ≤ pathLength pts := by
  induction pts with
  | nil => simp [pathLength]
  | cons p rest ih =>
    cases rest with
    | nil => simp [pathLength]
    | cons q rest' =>
      exact add_nonneg (Real.sqrt_nonneg _) ih

theorem snap_to_grid_nonneg (x : ℝ) (hx : 0 ≤ x) : 0 ≤ snap_to_grid x := by
  rw [snap_to_grid]
  refine div_nonneg ?_ (by norm_num)
  have h : (0 : ℤ) ≤ round (x * 1000) := by
    rw [round_eq]
    refine Int.floor_nonneg.mpr ?_
    nlinarith
  exact_mod_cast h

/-- At default spacing 3 and minimum bend radius 5, the estimation loop
exits after one iteration for any requested length in `[0, 103)`: the
first per-turn term is `34.5·π > 103`. -/
theorem revLoop_pi_small (L : ℝ) (h0 : 0 ≤ L) (h1 : L < 103) :
    revLoop Real.pi 5 3 L 2 = some 1 := by
  have hterm : (103 : ℝ) < spiralTerm Real.pi 5 3 0 := by
    rw [spiralTerm]
    push_cast
    nlinarith [Real.pi_gt_three]
  show revLoopAux Real.pi 5 3 L (Nat.succ (Nat.succ Nat.zero)) 0 0 = some 1
  rw [revLoopAux, if_pos h0, revLoopAux, if_neg (by linarith)]

/-- C4: the spiral generator reports, in the output component's
`info["length"]`, the (grid-snapped) sum of Euclidean distances between
consecutive points of the generated path — a function of the revolution
count, not the requested length — and there is a requested length for
which the reported value differs from it. -/
theorem spiral_reported_length :
    (∀ (L w s r : ℝ) (npts fuel i : ℕ),
        revLoop Real.pi r s L fuel = some i →
        spiral_circular_length L w s r npts fuel =
          some (snap_to_grid
            (pathLength (spiralPathPoints w s r npts (i + 1))))) ∧
      ∃ L : ℝ, spiral_circular_length L 0.5 3 5 1000 2 ≠ some L := by
  constructor
  · intro L w s r npts fuel i h
    simp [spiral_circular_length, h]
  · by_contra hcon
    push_neg at hcon
    have h0 := hcon 0
    have h1 := hcon 1
    rw [spiral_circular_length,
      revLoop_pi_small 0 le_rfl (by norm_num)] at h0
    rw [spiral_circular_length,
      revLoop_pi_small 1 (by norm_num) (by norm_num)] at h1
    simp only [Option.map_some', Option.some.injEq] at h0 h1
    rw [h0] at h1
    norm_num at h1

/-- Witness for C4 at the default spiral parameters and requested
length 0. -/
theorem spiral_reported_length_witness :
    revLoop Real.pi 5 3 (0 : ℝ) 2 = some 1 ∧
      spiral_circular_length 0 0.5 3 5 1000 2 =
        some (snap_to_grid (pathLength (spiralPathPoints 0.5 3 5 1000 2))) :=
  ⟨revLoop_pi_small 0 le_rfl (by norm_num),
    spiral_reported_length.1 0 0.5 3 5 1000 2 1
      (revLoop_pi_small 0 le_rfl (by norm_num))⟩

/-- C8: for a requested length of 0 at the default parameters the spiral
generator does not fail: the loop terminates after one iteration giving
revolution count 2, the generated path is non-degenerate (2100 points),
and the reported realized length is ≥ 0. -/
theorem spiral_zero_request :
    revolutionsCount Real.pi 5 3 (0 : ℝ) 2 = some 2 ∧
      (spiralPathPoints 0.5 3 5 1000 2).length = 2100 ∧
      ∃ v, spiral_circular_length 0 0.5 3 5 1000 2 = some v ∧ 0 ≤ v := by
  refine ⟨?_, ?_, ?_⟩
  · simp [revolutionsCount, revLoop_pi_small 0 le_rfl (by norm_num)]
  · rw [spiralPathPoints]
    simp [length_linspace]
  · refine ⟨snap_to_grid (pathLength (spiralPathPoints 0.5 3 5 1000 2)),
      ?_, snap_to_grid_nonneg _ (pathLength_nonneg _)⟩
    simp [spiral_circular_length, revLoop_pi_small 0 le_rfl (by norm_num)]

end Gds
